import Mathlib

/-
Verification development for the Hybrid Retrieval & Conversational
Tool-Orchestration Engine of the rental-search application.

The definitions below are a shallow embedding of the JavaScript source:
  * `RentalModel.buildSearchQuery`       (src/models/rental.js)
  * `VectorSearchService.buildVectorSearchFilter`, `hybridSearch`
                                         (src/services/vector-search.service.js)
  * `ConversationModel.getConversationHistory`, `addMessage`
                                         (src/models/conversation.js)
  * `RentalRAGAgent.extractSearchMetadata` (src/agents/rental-rag-agent.js)
  * `ChatController.handleChatMessage`   (src/controllers/chat.controller.js)

MongoDB queries are embedded as an explicit condition AST evaluated against
an explicit record type; JavaScript numbers that the code produces with
`parseInt` are embedded as `Int` (with `none` standing for `NaN`), and the
relevant JavaScript truthiness checks are modelled explicitly.
-/

namespace RentalApp

/-- BSON identifier values as this code base stores and compares them:
canonical object identifiers (kept as their lowercase 24-character hex
encoding), numbers (the legacy numeric listing ids), plain strings, and
`nan` for the `NaN` a failed `parseInt` yields. -/
inductive BVal where
  | oid (hex : String)
  | num (n : Int)
  | str (s : String)
  | nan
  deriving DecidableEq, Repr

/-- Lowercase hex digit for a value below 16. -/
def hexDigit (n : Nat) : Char :=
  if n < 10 then Char.ofNat ( '0'.toNat + n) else Char.ofNat ( 'a'.toNat + (n - 10))

/-- Two lowercase hex digits encoding one byte. -/
def hexByte (n : Nat) : String :=
  String.mk [hexDigit ((n % 256) / 16), hexDigit (n % 16)]

def isHexChar (c : Char) : Bool :=
  c.isDigit || ( 'a' ≤ c && c ≤ 'f') || ( 'A' ≤ c && c ≤ 'F')

/-- JavaScript `String.prototype.trim`: strip leading and trailing
whitespace. Implemented over the character list so that it reduces inside
the kernel. -/
def jsTrimStr (s : String) : String :=
  String.mk (((s.toList.dropWhile Char.isWhitespace).reverse.dropWhile
    Char.isWhitespace).reverse)

/-- JavaScript `String.prototype.toLowerCase` for the ASCII range this code
compares. Implemented over the character list so that it reduces inside the
kernel. -/
def toLowerStr (s : String) : String :=
  String.mk (s.toList.map Char.toLower)

/-- `ObjectId.isValid` on a string, as the MongoDB driver defines it: a
24-character hex string, or any 12-character string (taken as 12 raw bytes). -/
def isValidObjectId (s : String) : Bool :=
  (s.length = 24 && s.toList.all isHexChar) || s.length = 12

/-- `new ObjectId(s)` for a string `s` accepted by `isValidObjectId`: the
canonical lowercase hex encoding of the 12 identifier bytes. -/
def mkObjectId (s : String) : BVal :=
  if s.length = 12 then BVal.oid (String.join (s.toList.map (fun c => hexByte (c.toNat % 256))))
  else BVal.oid (toLowerStr s)

def digitsVal (l : List Char) : Nat :=
  l.foldl (fun acc c => acc * 10 + (c.toNat - '0'.toNat)) 0

/-- JavaScript `parseInt` restricted to the decimal fragment this code feeds
it: optional surrounding whitespace, an optional sign, then leading decimal
digits; `none` stands for the `NaN` returned when no digit is found. -/
def parseIntJS (s : String) : Option Int :=
  let t := jsTrimStr s
  let signed : Int × List Char :=
    match t.toList with
    | '-' :: cs => (-1, cs)
    | '+' :: cs => (1, cs)
    | cs => (1, cs)
  let ds := signed.2.takeWhile Char.isDigit
  if ds.isEmpty then none else some (signed.1 * (digitsVal ds : Int))

/-- JavaScript `!isNaN(s)` (whether `Number(s)` is a number) restricted to the
decimal fragment: the empty or all-whitespace string coerces to `0`, otherwise
an optional sign followed by digits with an optional fractional part. -/
def jsNumericStr (s : String) : Bool :=
  let t := jsTrimStr s
  if t = "" then true
  else
    let cs : List Char :=
      match t.toList with
      | '-' :: rest => rest
      | '+' :: rest => rest
      | rest => rest
    let intPart := cs.takeWhile Char.isDigit
    let rest := cs.drop intPart.length
    match rest with
    | [] => !intPart.isEmpty
    | '.' :: frac => frac.all Char.isDigit && !(intPart.isEmpty && frac.isEmpty)
    | _ => false

/-- The raw `ids` parameter: `buildSearchQuery` accepts either an array of id
strings or one comma-separated string (`Array.isArray(params.ids) ? params.ids
: params.ids.split(',')`). -/
inductive IdsField where
  | arr (l : List String)
  | strv (s : String)
  deriving DecidableEq, Repr

/-- JavaScript truthiness of the `ids` value: an array is always truthy, a
string is truthy when non-empty. -/
def idsTruthy : IdsField → Bool
  | .arr _ => true
  | .strv s => s != ""

def idsList : IdsField → List String
  | .arr l => l
  | .strv s => s.splitOn ","

/-- The id-conversion loop of `buildSearchQuery`: each id is trimmed; valid
ObjectId encodings go to the first list (as `new ObjectId(trimmedId)`), the
rest go to the second list as `parseInt(trimmedId)` when `!isNaN(trimmedId)`
(with `nan` when `parseInt` itself fails) and as the raw string otherwise. -/
def convertIds (ids : List String) : List BVal × List BVal :=
  ids.foldl
    (fun acc rawId =>
      let t := jsTrimStr rawId
      if isValidObjectId t then (acc.1 ++ [mkObjectId t], acc.2)
      else
        let v :=
          if jsNumericStr t then
            match parseIntJS t with
            | some k => BVal.num k
            | none => BVal.nan
          else BVal.str t
        (acc.1, acc.2 ++ [v]))
    ([], [])

/-- The raw parameter map consumed by `buildSearchQuery` (and, for its subset
of fields, by `buildVectorSearchFilter`). Every field is independently
optional; the numeric and boolean fields arrive as raw strings, as they do
over the query string. -/
structure SearchParams where
  ids : Option IdsField := none
  text : Option String := none
  location : Option String := none
  property_type : Option String := none
  room_type : Option String := none
  country : Option String := none
  min_price : Option String := none
  max_price : Option String := none
  min_bedrooms : Option String := none
  min_bathrooms : Option String := none
  min_accommodates : Option String := none
  superhost_only : Option String := none
  instant_bookable : Option String := none
  min_rating : Option String := none
  deriving DecidableEq, Repr

/-- Condition AST for the MongoDB predicates this code builds: `$text`,
case-insensitive `$regex`, equality, `$gte`/`$lte` bounds (with `none` for a
`NaN` bound), `_id $in` lists, and `$or` over sub-conditions. -/
inductive Cond where
  | textSearch (s : String)
  | regexI (field : String) (pat : String)
  | eqStr (field : String) (v : String)
  | eqBool (field : String) (v : Bool)
  | geNum (field : String) (bound : Option Int)
  | leNum (field : String) (bound : Option Int)
  | idIn (vals : List BVal)
  | orAny (cs : List Cond)

/-- A MongoDB find query: the conjunction of its conditions. -/
structure MongoQuery where
  conds : List Cond

/-- JavaScript truthiness of an optional string parameter. -/
def strTruthy : Option String → Bool
  | some s => s != ""
  | none => false

/-- One `if (params.field) ...` step of the query builders: absent or empty
values contribute no condition. -/
def condsOfOpt (o : Option String) (f : String → List Cond) : List Cond :=
  match o with
  | some s => if s != "" then f s else []
  | none => []

/-- The `$or` clause `buildSearchQuery` emits for `params.location`:
case-insensitive regex over neighbourhood, market and country. -/
def locationCond (loc : String) : Cond :=
  Cond.orAny
    [Cond.regexI "address.neighbourhood" loc,
     Cond.regexI "address.market" loc,
     Cond.regexI "address.country" loc]

namespace RentalModel

/-- The early-return branch of `buildSearchQuery` taken when `params.ids` is
truthy: ObjectId-encoded and numeric/legacy ids are collected separately and
combined with `$or` when both kinds occur. -/
def idsQuery (f : IdsField) : MongoQuery :=
  let pair := convertIds (idsList f)
  let objectIds := pair.1
  let numericIds := pair.2
  if objectIds ≠ [] ∧ numericIds ≠ [] then
    ⟨[Cond.orAny [Cond.idIn objectIds, Cond.idIn numericIds]]⟩
  else if objectIds ≠ [] then ⟨[Cond.idIn objectIds]⟩
  else if numericIds ≠ [] then ⟨[Cond.idIn numericIds]⟩
  else ⟨[]⟩

/-- The conditions `buildSearchQuery` accumulates when the `ids` branch is not
taken, in source order. -/
def otherConds (p : SearchParams) : List Cond :=
  condsOfOpt p.text (fun s => [Cond.textSearch s]) ++
  condsOfOpt p.location (fun s => [locationCond s]) ++
  condsOfOpt p.property_type (fun s => [Cond.eqStr "property_type" s]) ++
  condsOfOpt p.room_type (fun s => [Cond.eqStr "room_type" s]) ++
  condsOfOpt p.country (fun s => [Cond.eqStr "address.country" s]) ++
  (if strTruthy p.min_price || strTruthy p.max_price then
    condsOfOpt p.min_price (fun s => [Cond.geNum "price" (parseIntJS s)]) ++
    condsOfOpt p.max_price (fun s => [Cond.leNum "price" (parseIntJS s)])
  else []) ++
  condsOfOpt p.min_bedrooms (fun s => [Cond.geNum "bedrooms" (parseIntJS s)]) ++
  condsOfOpt p.min_bathrooms (fun s => [Cond.geNum "bathrooms" (parseIntJS s)]) ++
  condsOfOpt p.min_accommodates (fun s => [Cond.geNum "accommodates" (parseIntJS s)]) ++
  (if p.superhost_only = some "true" then [Cond.eqBool "host.host_is_superhost" true] else []) ++
  (if p.instant_bookable = some "true" then [Cond.eqBool "instant_bookable" true] else []) ++
  condsOfOpt p.min_rating
    (fun s => [Cond.geNum "review_scores.review_scores_rating" (parseIntJS s)])

/-- `RentalModel.buildSearchQuery` (src/models/rental.js): a truthy `ids`
parameter short-circuits into the id lookup query, every other recognized
field contributes its condition. -/
def buildSearchQuery (p : SearchParams) : MongoQuery :=
  match p.ids with
  | some f => if idsTruthy f then idsQuery f else ⟨otherConds p⟩
  | none => ⟨otherConds p⟩

end RentalModel

/-- Address projection of a stored rental document. -/
structure Address where
  neighbourhood : Option String := none
  market : Option String := none
  country : Option String := none
  deriving DecidableEq, Repr

/-- A stored rental document, restricted to the fields the compiled predicates
read. `textTokens` stands for the document side of the `$text` index. -/
structure Rental where
  rid : BVal
  textTokens : List String := []
  property_type : Option String := none
  room_type : Option String := none
  price : Option Int := none
  bedrooms : Option Int := none
  bathrooms : Option Int := none
  accommodates : Option Int := none
  rating : Option Int := none
  superhost : Option Bool := none
  instant_bookable : Option Bool := none
  address : Address := {}
  deriving DecidableEq, Repr

def strField (r : Rental) : String → Option String
  | "property_type" => r.property_type
  | "room_type" => r.room_type
  | "address.neighbourhood" => r.address.neighbourhood
  | "address.market" => r.address.market
  | "address.country" => r.address.country
  | _ => none

def numField (r : Rental) : String → Option Int
  | "price" => r.price
  | "bedrooms" => r.bedrooms
  | "bathrooms" => r.bathrooms
  | "accommodates" => r.accommodates
  | "review_scores.review_scores_rating" => r.rating
  | _ => none

def boolField (r : Rental) : String → Option Bool
  | "host.host_is_superhost" => r.superhost
  | "instant_bookable" => r.instant_bookable
  | _ => none

/-- Case-insensitive substring test: the semantics of `$regex` with option
`i` for the literal (metacharacter-free) patterns this code passes. -/
def ciContains (pat v : String) : Bool :=
  decide (List.IsInfix (toLowerStr pat).toList (toLowerStr v).toList)

/-- Case-insensitive substring test against an optional field: a missing
field never matches. -/
def optCiContains (pat : String) (o : Option String) : Bool :=
  match o with
  | some v => ciContains pat v
  | none => false

mutual

/-- Evaluation of one condition against one stored document. A `$gte`/`$lte`
bound of `none` (`NaN`) and comparisons against a missing field are modelled
as non-matching. `$text` matches when any search term is among the document's
indexed tokens. -/
def matchesCond (r : Rental) : Cond → Bool
  | .textSearch s => (s.splitOn " ").any (fun w => r.textTokens.contains w)
  | .regexI f pat => optCiContains pat (strField r f)
  | .eqStr f v => strField r f == some v
  | .eqBool f b => boolField r f == some b
  | .geNum f bound =>
    match bound, numField r f with
    | some k, some v => decide (k ≤ v)
    | _, _ => false
  | .leNum f bound =>
    match bound, numField r f with
    | some k, some v => decide (v ≤ k)
    | _, _ => false
  | .idIn vals => decide (r.rid ∈ vals)
  | .orAny cs => matchesAnyCond r cs

def matchesAnyCond (r : Rental) : List Cond → Bool
  | [] => false
  | c :: cs => matchesCond r c || matchesAnyCond r cs

end

/-- A document matches a query when it satisfies every condition. -/
def matchesQuery (r : Rental) (q : MongoQuery) : Bool :=
  q.conds.all (fun c => matchesCond r c)

namespace VectorSearchService

/-- `VectorSearchService.buildVectorSearchFilter`
(src/services/vector-search.service.js): the metadata filter attached to the
`$vectorSearch` stage, in source order. Note that `location` becomes an exact
`$eq` on `address.market` alone. -/
def buildVectorSearchFilter (p : SearchParams) : List Cond :=
  condsOfOpt p.property_type (fun s => [Cond.eqStr "property_type" s]) ++
  condsOfOpt p.room_type (fun s => [Cond.eqStr "room_type" s]) ++
  (if strTruthy p.min_price || strTruthy p.max_price then
    condsOfOpt p.min_price (fun s => [Cond.geNum "price" (parseIntJS s)]) ++
    condsOfOpt p.max_price (fun s => [Cond.leNum "price" (parseIntJS s)])
  else []) ++
  condsOfOpt p.min_bedrooms (fun s => [Cond.geNum "bedrooms" (parseIntJS s)]) ++
  condsOfOpt p.min_accommodates (fun s => [Cond.geNum "accommodates" (parseIntJS s)]) ++
  (if p.superhost_only = some "true" then [Cond.eqBool "host.host_is_superhost" true] else []) ++
  condsOfOpt p.country (fun s => [Cond.eqStr "address.country" s]) ++
  condsOfOpt p.location (fun s => [Cond.eqStr "address.market" s])

/-- A document passes the vector-index metadata filter when it satisfies
every condition of the filter. -/
def matchesVectorFilter (r : Rental) (f : List Cond) : Bool :=
  f.all (fun c => matchesCond r c)

end VectorSearchService

/-- One scored search result as `hybridSearch` manipulates it: its `_id`, a
stand-in for the projected payload (`name`), and the `score` field, absent on
lexical results until the fusion step assigns one. Scores are embedded as
rationals. -/
structure SResult where
  rid : BVal
  name : String := ""
  score : Option ℚ := none
  deriving DecidableEq, Repr

/-- The `_id.toString()` of a result id, the key `hybridSearch` deduplicates
by. -/
def idToString : BVal → String
  | .oid h => h
  | .num n => toString n
  | .str s => s
  | .nan => "NaN"

/-- Score of a result as the sort comparator reads it: `r.score || 0`. -/
def scoreOf (r : SResult) : ℚ :=
  r.score.getD 0

/-- The descending-score order the comparator `(b.score || 0) - (a.score || 0)`
induces. -/
def scoreGe (a b : SResult) : Prop :=
  scoreOf b ≤ scoreOf a

instance : DecidableRel scoreGe := fun a b =>
  inferInstanceAs (Decidable (scoreOf b ≤ scoreOf a))

instance : IsTotal SResult scoreGe :=
  ⟨fun a b => le_total (scoreOf b) (scoreOf a)⟩

instance : IsTrans SResult scoreGe :=
  ⟨fun _ _ _ h1 h2 => le_trans h2 h1⟩

namespace VectorSearchService

/-- The fixed score `hybridSearch` injects on lexical-only hits. -/
def fallbackScore : ℚ := 1 / 2

end VectorSearchService

/-- The `_id.toString()` strings of the vector results, the set
`hybridSearch` deduplicates against. -/
def vectorIdsOf (vr : List SResult) : List String :=
  vr.map (fun r => idToString r.rid)

/-- The lexical-only results `hybridSearch` appends: traditional results whose
id is not among the vector ids, each given the fixed fallback score. -/
def lexicalAdds (vr tr : List SResult) : List SResult :=
  (tr.filter (fun r => !(decide (idToString r.rid ∈ vectorIdsOf vr)))).map
    (fun r => { r with score := some VectorSearchService.fallbackScore })

namespace VectorSearchService

/-- The fusion step of `VectorSearchService.hybridSearch`
(src/services/vector-search.service.js): vector results are kept as returned;
a traditional (lexical) result is appended, with `score` set to the fallback,
only when its `_id.toString()` is not among the vector result ids; the
combined list is then sorted by score descending (a stable sort, as
`Array.prototype.sort` is with the comparator
`(b.score || 0) - (a.score || 0)`) and truncated to `limit`. -/
def hybridCombine (vectorResults traditionalResults : List SResult) (limit : Nat) :
    List SResult :=
  (List.insertionSort scoreGe (vectorResults ++ lexicalAdds vectorResults traditionalResults)).take
    limit

/-- `VectorSearchService.hybridSearch` at the level of the two joined
asynchronous outcomes: `Promise.all` rejects the whole call as soon as either
underlying search fails, and only with two successes does the fusion step
run. -/
def hybridSearch (vecOutcome lexOutcome : Except String (List SResult)) (limit : Nat) :
    Except String (List SResult) :=
  match vecOutcome, lexOutcome with
  | .error e, _ => .error e
  | _, .error e => .error e
  | .ok v, .ok t => .ok (hybridCombine v t limit)

end VectorSearchService

/-- One stored conversation message, restricted to the fields the claims
read: its role, its text, and the `error` flag of its metadata. -/
structure Msg where
  role : String
  content : String
  error : Bool := false
  deriving DecidableEq, Repr

/-- The rolling per-session metadata document. -/
structure ConvMeta where
  totalMessages : Nat := 0
  deriving DecidableEq, Repr

/-- One stored conversation document. -/
structure Conversation where
  messages : List Msg := []
  meta : ConvMeta := {}
  deriving DecidableEq, Repr

/-- The `conversations` collection: sessions keyed by `sessionId`. -/
abbrev ConvStore := List (String × Conversation)

/-- `findOne({ sessionId })`. -/
def lookupSession (store : ConvStore) (sessionId : String) : Option Conversation :=
  match store with
  | [] => none
  | (k, c) :: rest => if k = sessionId then some c else lookupSession rest sessionId

/-- The last `n` elements of a list, in order: the semantics of the MongoDB
projection `messages: { $slice: -n }`. -/
def lastN (n : Nat) (l : List α) : List α :=
  l.drop (l.length - n)

/-- What `getConversationHistory` returns. -/
structure HistoryResult where
  success : Bool
  messages : List Msg := []
  metadata : Option ConvMeta := none
  deriving DecidableEq, Repr

namespace ConversationModel

/-- `ConversationModel.getConversationHistory` (src/models/conversation.js):
reads the session with a `$slice: -limit` projection; a missing session yields
a success carrying an empty message list and null metadata. -/
def getConversationHistory (store : ConvStore) (sessionId : String) (limit : Nat) :
    HistoryResult :=
  match lookupSession store sessionId with
  | none => { success := true, messages := [], metadata := none }
  | some c => { success := true, messages := lastN limit c.messages, metadata := some c.meta }

/-- `ConversationModel.addMessage` (src/models/conversation.js) as its atomic
upsert acts on the store: push the message and bump `totalMessages` on the
matching session, or create the session with that one message. The user-id
bookkeeping of `$setOnInsert` does not affect the message list and is not
modelled. -/
def addMessage (store : ConvStore) (sessionId : String) (m : Msg) : ConvStore :=
  match store with
  | [] => [(sessionId, { messages := [m], meta := { totalMessages := 1 } })]
  | (k, c) :: rest =>
    if k = sessionId then
      (k, { c with messages := c.messages ++ [m],
                   meta := { c.meta with totalMessages := c.meta.totalMessages + 1 } }) :: rest
    else (k, c) :: addMessage rest sessionId m

/-- The message list stored for a session. -/
def sessionMessages (store : ConvStore) (sessionId : String) : List Msg :=
  match lookupSession store sessionId with
  | some c => c.messages
  | none => []

end ConversationModel

/-- The typed arguments of the declared tools, restricted to the fields
`extractSearchMetadata` reads (`query`, `filters`, `limit` of `searchRentals`;
`propertyId` of `getPropertyDetails`). -/
structure SearchToolArgs where
  query : Option String := none
  filters : Option SearchParams := none
  limit : Option Int := none
  propertyId : Option Int := none
  deriving DecidableEq, Repr

/-- A tool call's argument payload after `extractToolCallsFromResult`: either
parsed, or kept as the raw wire string when `JSON.parse` failed (property
access on it then yields `undefined`). -/
inductive ToolArgs where
  | parsed (a : SearchToolArgs)
  | raw (s : String)
  deriving DecidableEq, Repr

/-- One extracted tool invocation. -/
structure ToolCall where
  name : String
  arguments : Option ToolArgs := none
  deriving DecidableEq, Repr

/-- `call.arguments?.query`: `undefined` on a missing or unparsed payload. -/
def argQuery : Option ToolArgs → Option String
  | some (.parsed a) => a.query
  | _ => none

/-- `call.arguments?.filters`. -/
def argFilters : Option ToolArgs → Option SearchParams
  | some (.parsed a) => a.filters
  | _ => none

/-- `call.arguments?.limit`. -/
def argLimit : Option ToolArgs → Option Int
  | some (.parsed a) => a.limit
  | _ => none

/-- `call.arguments?.propertyId`. -/
def argPropertyId : Option ToolArgs → Option Int
  | some (.parsed a) => a.propertyId
  | _ => none

/-- `lastSearch.arguments?.query || userMessage`: the user message stands in
when the query argument is `undefined` or the empty (falsy) string. -/
def queryOr (q : Option String) (userMessage : String) : String :=
  match q with
  | some s => if s = "" then userMessage else s
  | none => userMessage

/-- `lastSearch.arguments?.filters || {}`. -/
def filtersOr : Option SearchParams → SearchParams
  | some f => f
  | none => {}

/-- `lastSearch.arguments?.limit || 5` (a limit of `0` is falsy and also
falls back). -/
def limitOr : Option Int → Int
  | some n => if n = 0 then 5 else n
  | none => 5

/-- The UI-facing metadata record `extractSearchMetadata` assembles. -/
structure ExtractedMetadata where
  search_type : Option String := none
  search_query : Option String := none
  search_filters : Option SearchParams := none
  search_limit : Option Int := none
  rental_ids : Option (List BVal) := none
  property_details_requested : Option Bool := none
  property_ids : Option (List (Option Int)) := none
  deriving DecidableEq, Repr

namespace RentalRAGAgent

/-- `RentalRAGAgent.extractSearchMetadata` (src/agents/rental-rag-agent.js).
`toolCalls` is `none` when extraction yielded no calls; `lastSearchResults`
is the instance field `this.lastSearchResults` holding the ids of the most
recent fused search (`none` when unset). The last `searchRentals` call wins;
`getPropertyDetails` calls set the detail-lookup fields. -/
def extractSearchMetadata (toolCalls : Option (List ToolCall)) (userMessage : String)
    (lastSearchResults : Option (List SResult)) : ExtractedMetadata :=
  match toolCalls with
  | none => {}
  | some tcs =>
    if tcs.isEmpty then {}
    else
      let searchCalls := tcs.filter (fun t => t.name == "searchRentals")
      let md1 : ExtractedMetadata :=
        match searchCalls.getLast? with
        | some lastSearch =>
          { search_type := some "rental_search",
            search_query := some (queryOr (argQuery lastSearch.arguments) userMessage),
            search_filters := some (filtersOr (argFilters lastSearch.arguments)),
            search_limit := some (limitOr (argLimit lastSearch.arguments)),
            rental_ids := lastSearchResults.map (fun rs => rs.map (fun r => r.rid)) }
        | none => {}
      let detailsCalls := tcs.filter (fun t => t.name == "getPropertyDetails")
      if detailsCalls.isEmpty then md1
      else
        { md1 with
          property_details_requested := some true,
          property_ids := some (detailsCalls.map (fun t => argPropertyId t.arguments)) }

end RentalRAGAgent

/-- The agent's fixed failure message (the `catch` branch of
`RentalRAGAgent.chat`). -/
def agentErrorText : String :=
  "I'm sorry, I encountered an error while processing your request. Please try again."

/-- The controller's fixed failure message (the `catch` branch of
`ChatController.handleChatMessage`). -/
def controllerErrorText : String :=
  "I'm having trouble processing your request right now. Please try again."

/-- The outcome of the `rentalRAGAgent.chat` call as the controller observes
it: a successful turn, the agent's own caught failure (which always carries
the agent's fixed message), or an exception thrown into the controller's
`catch`. -/
inductive AgentOutcome where
  | ok (message : String) (err : Option String)
  | fail (err : String)
  | thrown (err : String)
  deriving DecidableEq, Repr

/-- Whether the turn failed. -/
def isFailureOutcome : AgentOutcome → Bool
  | .ok _ _ => false
  | .fail _ => true
  | .thrown _ => true

/-- The human-readable message a failed turn surfaces. -/
def failMessage : AgentOutcome → String
  | .ok m _ => m
  | .fail _ => agentErrorText
  | .thrown _ => controllerErrorText

/-- What `handleChatMessage` returns to its caller. -/
structure ChatResult where
  success : Bool
  message : String
  sessionId : String
  error : Option String := none
  deriving DecidableEq, Repr

namespace ChatController

/-- `ChatController.handleChatMessage` (src/controllers/chat.controller.js)
as it acts on the conversation store: a falsy session id is replaced by a
fresh one; the user message is appended; then, by agent outcome: on success
the assistant message is appended unflagged and a success returned, on an
agent-reported failure the agent's error message is appended with an error
flag and a structured failure returned, and on a thrown exception the catch
block appends the controller's fallback text with an error flag and returns a
structured failure. User-profile tracking and the session-metadata merge
touch other documents and are not modelled. -/
def handleChatMessage (store : ConvStore) (sessionId : Option String)
    (freshId : String) (message : String) (outcome : AgentOutcome) :
    ChatResult × ConvStore :=
  let sid :=
    match sessionId with
    | some s => if s = "" then freshId else s
    | none => freshId
  let store1 := ConversationModel.addMessage store sid { role := "user", content := message }
  match outcome with
  | .ok m _ =>
    let store2 := ConversationModel.addMessage store1 sid { role := "assistant", content := m }
    ({ success := true, message := m, sessionId := sid }, store2)
  | .fail e =>
    let store2 := ConversationModel.addMessage store1 sid
      { role := "assistant", content := agentErrorText, error := true }
    ({ success := false, message := agentErrorText, sessionId := sid, error := some e }, store2)
  | .thrown _ =>
    let store2 := ConversationModel.addMessage store1 sid
      { role := "assistant", content := controllerErrorText, error := true }
    ({ success := false, message := controllerErrorText, sessionId := sid }, store2)

end ChatController

/- Concrete sample inputs used by the counterexample and witness theorems. -/

def c1Params : SearchParams :=
  { ids := some (IdsField.arr []), min_price := some "100" }

def c1Rental : Rental :=
  { rid := BVal.num 7, price := some 50 }

def c1wIds : IdsField :=
  IdsField.arr ["507f1f77bcf86cd799439011", "42"]

def c1wParams : SearchParams :=
  { ids := some c1wIds, min_price := some "9999" }

def c1wRental : Rental :=
  { rid := BVal.oid "507f1f77bcf86cd799439011" }

def c2Sem : SResult :=
  { rid := BVal.str "sem-1", name := "semantic hit", score := some (3 / 10) }

def c2Lex : SResult :=
  { rid := BVal.str "lex-2", name := "lexical hit" }

def c3Sem : SResult :=
  { rid := BVal.str "hit-1", name := "semantic hit", score := some (9 / 10) }

def c3LexDup : SResult :=
  { rid := BVal.str "hit-1", name := "lexical duplicate" }

def c3LexNew : SResult :=
  { rid := BVal.str "hit-2", name := "lexical only" }

def c5Params : SearchParams :=
  { location := some "porto" }

def c5Rental : Rental :=
  { rid := BVal.num 3, address := { market := some "Grand Porto" } }

def c5wRental : Rental :=
  { rid := BVal.num 4,
    address := { neighbourhood := some "Ribeira", market := some "Porto",
                 country := some "Portugal" } }

def c6Conv : Conversation :=
  { messages :=
      [{ role := "user", content := "first" },
       { role := "assistant", content := "second" },
       { role := "user", content := "third" }] }

def c6Store : ConvStore :=
  [("session-1", c6Conv)]

def c7Calls : List ToolCall :=
  [{ name := "searchRentals",
     arguments := some (ToolArgs.parsed { query := some "beach house" }) },
   { name := "searchRentals",
     arguments := some (ToolArgs.parsed { query := some "beach house in Porto" }) }]

def c10Calls : List ToolCall :=
  [{ name := "searchRentals", arguments := some (ToolArgs.raw "not json") }]

/- Helper lemmas shared by the claim theorems. -/

theorem sessionMessages_addMessage_self (store : ConvStore) (sessionId : String) (m : Msg) :
    ConversationModel.sessionMessages (ConversationModel.addMessage store sessionId m) sessionId
      = ConversationModel.sessionMessages store sessionId ++ [m] := by
  induction store with
  | nil => simp [ConversationModel.addMessage, ConversationModel.sessionMessages, lookupSession]
  | cons hd tl ih =>
    obtain ⟨k, c⟩ := hd
    by_cases hk : k = sessionId
    · subst hk
      simp [ConversationModel.addMessage, ConversationModel.sessionMessages, lookupSession]
    · simp only [ConversationModel.addMessage, if_neg hk]
      simpa [ConversationModel.sessionMessages, lookupSession, hk] using ih

theorem mem_hybridCombine_cases {vr tr : List SResult} {limit : Nat} {r : SResult}
    (h : r ∈ VectorSearchService.hybridCombine vr tr limit) :
    r ∈ vr ∨ ∃ l, l ∈ tr ∧ idToString l.rid ∉ vectorIdsOf vr ∧
      r = { l with score := some VectorSearchService.fallbackScore } := by
  have h1 : r ∈ List.insertionSort scoreGe (vr ++ lexicalAdds vr tr) :=
    List.mem_of_mem_take h
  have h2 : r ∈ vr ++ lexicalAdds vr tr :=
    (List.perm_insertionSort scoreGe (vr ++ lexicalAdds vr tr)).mem_iff.mp h1
  rcases List.mem_append.mp h2 with hv | hm
  · exact Or.inl hv
  · right
    rcases List.mem_map.mp hm with ⟨l, hl, rfl⟩
    rcases List.mem_filter.mp hl with ⟨hltr, hcond⟩
    refine ⟨l, hltr, ?_, rfl⟩
    simpa using hcond

theorem pairwise_hybridCombine (vr tr : List SResult) (limit : Nat) :
    List.Pairwise scoreGe (VectorSearchService.hybridCombine vr tr limit) :=
  List.Pairwise.sublist (List.take_sublist _ _)
    (List.sorted_insertionSort scoreGe (vr ++ lexicalAdds vr tr))

theorem extract_last_search (tcs : List ToolCall) (userMessage : String)
    (lastSearchResults : Option (List SResult)) (c : ToolCall)
    (h : (tcs.filter (fun t => t.name == "searchRentals")).getLast? = some c) :
    (RentalRAGAgent.extractSearchMetadata (some tcs) userMessage lastSearchResults).search_query
        = some (queryOr (argQuery c.arguments) userMessage) ∧
    (RentalRAGAgent.extractSearchMetadata (some tcs) userMessage lastSearchResults).search_filters
        = some (filtersOr (argFilters c.arguments)) ∧
    (RentalRAGAgent.extractSearchMetadata (some tcs) userMessage lastSearchResults).search_limit
        = some (limitOr (argLimit c.arguments)) := by
  cases tcs with
  | nil => simp at h
  | cons a as =>
    simp only [RentalRAGAgent.extractSearchMetadata, List.isEmpty_cons, Bool.false_eq_true,
      if_false, h]
    split <;> simp

/- Claim theorems. -/

/-- C4: whenever the semantic (vector) search fails, `hybridSearch` fails with
that error, regardless of the lexical outcome; it never degrades to a
lexical-only result list. -/
theorem C4_semantic_failure_propagates (lexOutcome : Except String (List SResult))
    (limit : Nat) (e : String) :
    VectorSearchService.hybridSearch (Except.error e) lexOutcome limit = Except.error e := by
  cases lexOutcome <;> rfl

/-- C6: for a stored session, `getConversationHistory` succeeds and returns a
suffix window of the session's message sequence of length `min k` (the stored
count): the chronologically last `k` messages in chronological order, never
more than `k`. -/
theorem C6_history_suffix_window (store : ConvStore) (sessionId : String) (k : Nat)
    (c : Conversation) (h : lookupSession store sessionId = some c) :
    (ConversationModel.getConversationHistory store sessionId k).success = true ∧
    (ConversationModel.getConversationHistory store sessionId k).messages <:+ c.messages ∧
    (ConversationModel.getConversationHistory store sessionId k).messages.length
      = min k c.messages.length := by
  refine ⟨by simp [ConversationModel.getConversationHistory, h], ?_, ?_⟩
  · simp only [ConversationModel.getConversationHistory, h, lastN]
    exact List.drop_suffix _ _
  · simp only [ConversationModel.getConversationHistory, h, lastN, List.length_drop]
    omega

/-- C6 witness: with three stored messages and `k = 2`, the history is the
last two messages in order. -/
theorem C6_history_suffix_window_witness :
    (ConversationModel.getConversationHistory c6Store "session-1" 2).success = true ∧
    (ConversationModel.getConversationHistory c6Store "session-1" 2).messages <:+
      c6Conv.messages ∧
    (ConversationModel.getConversationHistory c6Store "session-1" 2).messages.length
      = min 2 c6Conv.messages.length :=
  C6_history_suffix_window c6Store "session-1" 2 c6Conv rfl

/-- C9: for a session id with no stored session, `getConversationHistory`
returns a success carrying an empty message list and null metadata. -/
theorem C9_missing_session (store : ConvStore) (sessionId : String) (k : Nat)
    (h : lookupSession store sessionId = none) :
    ConversationModel.getConversationHistory store sessionId k
      = { success := true, messages := [], metadata := none } := by
  simp [ConversationModel.getConversationHistory, h]

/-- C9 witness: the empty store has no session `"absent"`. -/
theorem C9_missing_session_witness :
    ConversationModel.getConversationHistory ([] : ConvStore) "absent" 5
      = { success := true, messages := [], metadata := none } :=
  C9_missing_session [] "absent" 5 rfl

/-- C1 counterexample: a parameter map whose `ids` field is the empty array
(with a contradictory `min_price`) compiles to the empty query, which matches
a record whose identifier is in neither parsed id list — the compiled
predicate does not match only records whose identifier is in the list. -/
theorem C1_empty_ids_counterexample :
    convertIds (idsList (IdsField.arr [])) = ([], []) ∧
    c1Rental.rid ∉ (convertIds (idsList (IdsField.arr []))).1 ∧
    c1Rental.rid ∉ (convertIds (idsList (IdsField.arr []))).2 ∧
    matchesQuery c1Rental (RentalModel.buildSearchQuery c1Params) = true := by
  refine ⟨rfl, by decide, by decide, by decide⟩

/-- C1 (amended): for every raw parameter map whose `ids` field is truthy (an
array, or a non-empty string), the compiled query depends only on `ids` —
every other supplied field is ignored — and, whenever the parsed id list is
non-empty, the query matches a record exactly when its identifier is among
the converted ObjectId encodings or among the converted numeric/legacy
encodings (the two groups combined by logical OR). -/
theorem C1_ids_override (p : SearchParams) (f : IdsField)
    (hp : p.ids = some f) (ht : idsTruthy f = true) :
    RentalModel.buildSearchQuery p = RentalModel.buildSearchQuery { ids := some f } ∧
    ∀ r : Rental,
      ((convertIds (idsList f)).1 ≠ [] ∨ (convertIds (idsList f)).2 ≠ []) →
      (matchesQuery r (RentalModel.buildSearchQuery p) = true ↔
        r.rid ∈ (convertIds (idsList f)).1 ∨ r.rid ∈ (convertIds (idsList f)).2) := by
  have hq : RentalModel.buildSearchQuery p = RentalModel.idsQuery f := by
    simp [RentalModel.buildSearchQuery, hp, ht]
  have hq2 : RentalModel.buildSearchQuery { ids := some f } = RentalModel.idsQuery f := by
    simp [RentalModel.buildSearchQuery, ht]
  refine ⟨hq.trans hq2.symm, ?_⟩
  intro r hne
  rw [hq]
  unfold RentalModel.idsQuery
  by_cases h1 : (convertIds (idsList f)).1 = [] <;>
    by_cases h2 : (convertIds (idsList f)).2 = [] <;>
      simp [h1, h2, matchesQuery, matchesCond, matchesAnyCond] at hne ⊢

/-- C1 witness: with `ids` holding one ObjectId encoding and one numeric
encoding next to a contradictory `min_price`, the query ignores the price and
matches the record carrying that ObjectId. -/
theorem C1_ids_override_witness :
    RentalModel.buildSearchQuery c1wParams = RentalModel.buildSearchQuery { ids := some c1wIds } ∧
    (matchesQuery c1wRental (RentalModel.buildSearchQuery c1wParams) = true ↔
      c1wRental.rid ∈ (convertIds (idsList c1wIds)).1 ∨
        c1wRental.rid ∈ (convertIds (idsList c1wIds)).2) := by
  have h := C1_ids_override c1wParams c1wIds rfl rfl
  exact ⟨h.1, h.2 c1wRental (by decide)⟩

/-- C7: when a turn records retrieval-tool (`searchRentals`) calls, the last
such call's arguments become the extracted `search_query`, `search_filters`
and `search_limit` (last-wins). -/
theorem C7_last_search_call_wins (tcs : List ToolCall) (userMessage : String)
    (lastSearchResults : Option (List SResult)) (c : ToolCall)
    (h : (tcs.filter (fun t => t.name == "searchRentals")).getLast? = some c) :
    (RentalRAGAgent.extractSearchMetadata (some tcs) userMessage lastSearchResults).search_query
        = some (queryOr (argQuery c.arguments) userMessage) ∧
    (RentalRAGAgent.extractSearchMetadata (some tcs) userMessage lastSearchResults).search_filters
        = some (filtersOr (argFilters c.arguments)) ∧
    (RentalRAGAgent.extractSearchMetadata (some tcs) userMessage lastSearchResults).search_limit
        = some (limitOr (argLimit c.arguments)) :=
  extract_last_search tcs userMessage lastSearchResults c h

/-- C7 witness: two `searchRentals` calls querying "beach house" and then
"beach house in Porto" yield the extracted query "beach house in Porto". -/
theorem C7_last_search_call_wins_witness :
    (RentalRAGAgent.extractSearchMetadata (some c7Calls) "find me a beach house" none).search_query
      = some "beach house in Porto" := by
  have h := C7_last_search_call_wins c7Calls "find me a beach house" none
    { name := "searchRentals",
      arguments := some (ToolArgs.parsed { query := some "beach house in Porto" }) } (by decide)
  exact h.1

/-- C10: when the last retrieval-tool call carries no query argument, the
extracted `search_query` falls back to the user message passed in (the
controller passes the context-enriched message); an absent filters argument
defaults to the empty filter set and an absent limit defaults to 5. -/
theorem C10_metadata_fallbacks (tcs : List ToolCall) (userMessage : String)
    (lastSearchResults : Option (List SResult)) (c : ToolCall)
    (h : (tcs.filter (fun t => t.name == "searchRentals")).getLast? = some c)
    (hq : argQuery c.arguments = none) :
    (RentalRAGAgent.extractSearchMetadata (some tcs) userMessage lastSearchResults).search_query
        = some userMessage ∧
    (argFilters c.arguments = none →
      (RentalRAGAgent.extractSearchMetadata (some tcs) userMessage
          lastSearchResults).search_filters = some {}) ∧
    (argLimit c.arguments = none →
      (RentalRAGAgent.extractSearchMetadata (some tcs) userMessage
          lastSearchResults).search_limit = some 5) := by
  obtain ⟨h1, h2, h3⟩ := extract_last_search tcs userMessage lastSearchResults c h
  refine ⟨?_, fun hf => ?_, fun hl => ?_⟩
  · rw [h1, hq]; rfl
  · rw [h2, hf]; rfl
  · rw [h3, hl]; rfl

/-- C2 counterexample: a semantic hit scoring 3/10 is ranked below a
lexical-only hit, which receives the fixed fallback score 1/2 — the fallback
is not strictly below every meaningful semantic score, so semantic hits do
not always outrank lexical-only hits. -/
theorem C2_low_semantic_score_counterexample :
    VectorSearchService.hybridCombine [c2Sem] [c2Lex] 2
      = [{ c2Lex with score := some VectorSearchService.fallbackScore }, c2Sem] ∧
    idToString c2Lex.rid ∉ vectorIdsOf [c2Sem] ∧
    scoreOf c2Sem < VectorSearchService.fallbackScore := by
  have hlex : lexicalAdds [c2Sem] [c2Lex]
      = [{ c2Lex with score := some VectorSearchService.fallbackScore }] := by
    simp [lexicalAdds, vectorIdsOf, c2Sem, c2Lex, idToString]
  have hno : ¬ scoreGe c2Sem { c2Lex with score := some VectorSearchService.fallbackScore } := by
    simp only [scoreGe, scoreOf, c2Sem, c2Lex, VectorSearchService.fallbackScore, Option.getD]
    norm_num
  refine ⟨?_, by decide, ?_⟩
  · show (List.insertionSort scoreGe ([c2Sem] ++ lexicalAdds [c2Sem] [c2Lex])).take 2 = _
    rw [hlex]
    simp [List.insertionSort, List.orderedInsert, hno]
  · simp only [scoreOf, c2Sem, VectorSearchService.fallbackScore, Option.getD]
    norm_num

/-- C2 (amended): every lexical-only hit in the fused output carries the
fixed fallback score 1/2, and the fused output is sorted descending by
comparator score; consequently a semantic hit is ranked above every
lexical-only hit exactly when its score exceeds 1/2 (stated below for
indices), while a semantic hit scoring below 1/2 is ranked below
lexical-only hits. -/
theorem C2_fallback_score_ranking (vr tr : List SResult) (limit : Nat) :
    (∀ r ∈ VectorSearchService.hybridCombine vr tr limit,
        idToString r.rid ∉ vectorIdsOf vr →
        r.score = some VectorSearchService.fallbackScore) ∧
    List.Pairwise scoreGe (VectorSearchService.hybridCombine vr tr limit) ∧
    (∀ i j : Fin (VectorSearchService.hybridCombine vr tr limit).length,
        idToString ((VectorSearchService.hybridCombine vr tr limit).get j).rid ∉ vectorIdsOf vr →
        VectorSearchService.fallbackScore <
          scoreOf ((VectorSearchService.hybridCombine vr tr limit).get i) →
        (i : ℕ) < (j : ℕ)) := by
  have hfall : ∀ r ∈ VectorSearchService.hybridCombine vr tr limit,
      idToString r.rid ∉ vectorIdsOf vr →
      r.score = some VectorSearchService.fallbackScore := by
    intro r hr hnot
    rcases mem_hybridCombine_cases hr with hv | ⟨l, -, -, rfl⟩
    · exact absurd (List.mem_map_of_mem _ hv) hnot
    · rfl
  refine ⟨hfall, pairwise_hybridCombine vr tr limit, ?_⟩
  intro i j hj hi
  have hmem : (VectorSearchService.hybridCombine vr tr limit).get j ∈
      VectorSearchService.hybridCombine vr tr limit := by
    exact List.get_mem (VectorSearchService.hybridCombine vr tr limit) j.1 j.2
  have hsc := hfall _ hmem hj
  have hjs : scoreOf ((VectorSearchService.hybridCombine vr tr limit).get j)
      = VectorSearchService.fallbackScore := by
    unfold scoreOf
    rw [hsc]
    rfl
  by_contra hcon
  rcases Nat.lt_or_ge (j : ℕ) (i : ℕ) with hlt | hge
  · have hp := (List.pairwise_iff_get.mp (pairwise_hybridCombine vr tr limit)) j i
      (Fin.lt_def.mpr hlt)
    rw [scoreGe, hjs] at hp
    exact absurd hi (not_lt.mpr hp)
  · have hij : i = j := Fin.ext (le_antisymm hge (Nat.le_of_not_lt hcon))
    rw [hij, hjs] at hi
    exact lt_irrefl _ hi

/-- C3: when each underlying result list carries pairwise-distinct ids (as
lists returned by one store query do), the fused output has pairwise-distinct
ids, and every fused element is either a semantic record kept unchanged or a
lexical record (absent from the semantic ids) with only its score replaced —
never a field-by-field merge. -/
theorem C3_fusion_dedup (vr tr : List SResult) (limit : Nat)
    (hv : (vectorIdsOf vr).Nodup)
    (ht : (tr.map (fun r => idToString r.rid)).Nodup) :
    ((VectorSearchService.hybridCombine vr tr limit).map (fun r => idToString r.rid)).Nodup ∧
    ∀ r ∈ VectorSearchService.hybridCombine vr tr limit,
      r ∈ vr ∨ ∃ l, l ∈ tr ∧ idToString l.rid ∉ vectorIdsOf vr ∧
        r = { l with score := some VectorSearchService.fallbackScore } := by
  constructor
  · have hadds : (lexicalAdds vr tr).map (fun r => idToString r.rid)
        = (tr.filter (fun r => !(decide (idToString r.rid ∈ vectorIdsOf vr)))).map
            (fun r => idToString r.rid) := by
      rw [lexicalAdds, List.map_map]
      rfl
    have hnodup2 : ((lexicalAdds vr tr).map (fun r => idToString r.rid)).Nodup := by
      rw [hadds]
      exact ((List.filter_sublist tr).map _).nodup ht
    have hdisj : (vectorIdsOf vr).Disjoint
        ((lexicalAdds vr tr).map (fun r => idToString r.rid)) := by
      intro a ha hb
      rw [hadds] at hb
      rcases List.mem_map.mp hb with ⟨l, hl, rfl⟩
      rcases List.mem_filter.mp hl with ⟨-, hcond⟩
      simp at hcond
      exact hcond ha
    have hcomb : ((vr ++ lexicalAdds vr tr).map (fun r => idToString r.rid)).Nodup := by
      rw [List.map_append]
      exact List.nodup_append.mpr ⟨hv, hnodup2, hdisj⟩
    have hsorted : ((List.insertionSort scoreGe (vr ++ lexicalAdds vr tr)).map
        (fun r => idToString r.rid)).Nodup :=
      ((List.perm_insertionSort scoreGe _).map _).nodup_iff.mpr hcomb
    exact ((List.take_sublist limit _).map _).nodup hsorted
  · intro r hr
    exact mem_hybridCombine_cases hr

/-- C3 witness: one semantic hit, one lexical duplicate of it and one fresh
lexical hit fuse into a list with pairwise-distinct ids. -/
theorem C3_fusion_dedup_witness :
    ((VectorSearchService.hybridCombine [c3Sem] [c3LexDup, c3LexNew] 3).map
      (fun r => idToString r.rid)).Nodup :=
  (C3_fusion_dedup [c3Sem] [c3LexDup, c3LexNew] 3 (by decide) (by decide)).1

/-- C5 counterexample: for the filter `location = "porto"`, the lexical
query matches a rental whose market is "Grand Porto" (case-insensitive
substring), while the vector-index metadata filter — an exact `$eq` on
`address.market` alone — rejects the same rental, so the two sides do not
both treat location as a case-insensitive partial match. -/
theorem C5_location_counterexample :
    matchesQuery c5Rental (RentalModel.buildSearchQuery c5Params) = true ∧
    VectorSearchService.matchesVectorFilter c5Rental
      (VectorSearchService.buildVectorSearchFilter c5Params) = false := by
  exact ⟨by decide, by decide⟩

/-- C5 (amended): for every compiled filter with a non-empty location (and no
ids override), the lexical query contains the three-field case-insensitive
`$or` regex clause — matching exactly when the location occurs
case-insensitively inside neighbourhood, market or country — while the
vector-index metadata filter instead contains an exact equality condition on
`address.market` alone, matching exactly when the stored market equals the
location string. -/
theorem C5_location_clause_semantics (p : SearchParams) (loc : String)
    (hl : p.location = some loc) (hne : loc ≠ "") (hids : p.ids = none) :
    locationCond loc ∈ (RentalModel.buildSearchQuery p).conds ∧
    Cond.eqStr "address.market" loc ∈ VectorSearchService.buildVectorSearchFilter p ∧
    (∀ r : Rental, matchesCond r (locationCond loc)
      = (optCiContains loc r.address.neighbourhood || optCiContains loc r.address.market ||
          optCiContains loc r.address.country)) ∧
    (∀ r : Rental, matchesCond r (Cond.eqStr "address.market" loc)
      = (r.address.market == some loc)) := by
  have hloc : condsOfOpt p.location (fun s => [locationCond s]) = [locationCond loc] := by
    rw [hl]
    simp [condsOfOpt, hne]
  have hvec : condsOfOpt p.location (fun s => [Cond.eqStr "address.market" s])
      = [Cond.eqStr "address.market" loc] := by
    rw [hl]
    simp [condsOfOpt, hne]
  refine ⟨?_, ?_, ?_, ?_⟩
  · simp [RentalModel.buildSearchQuery, hids, RentalModel.otherConds, hloc]
  · simp [VectorSearchService.buildVectorSearchFilter, hvec]
  · intro r
    simp [locationCond, matchesCond, matchesAnyCond, strField, Bool.or_assoc]
  · intro r
    simp [matchesCond, strField]

/-- C5 witness: with location "Porto", the lexical clause is present and
matches the sample rental whose market is exactly "Porto"; the vector filter
carries the exact market equality, which also matches it. -/
theorem C5_location_clause_semantics_witness :
    locationCond "Porto" ∈
      (RentalModel.buildSearchQuery { location := some "Porto" }).conds ∧
    Cond.eqStr "address.market" "Porto" ∈
      VectorSearchService.buildVectorSearchFilter { location := some "Porto" } ∧
    matchesCond c5wRental (locationCond "Porto")
      = (optCiContains "Porto" c5wRental.address.neighbourhood ||
          optCiContains "Porto" c5wRental.address.market ||
          optCiContains "Porto" c5wRental.address.country) ∧
    matchesCond c5wRental (Cond.eqStr "address.market" "Porto")
      = (c5wRental.address.market == some "Porto") := by
  have h := C5_location_clause_semantics { location := some "Porto" } "Porto" rfl
    (by decide) rfl
  exact ⟨h.1, h.2.1, h.2.2.1 c5wRental, h.2.2.2 c5wRental⟩

/-- C8: for every chat turn whose agent call fails — an agent-reported
failure or a thrown exception — the controller still appends an
error-flagged assistant message to the session before returning, and the
caller receives a structured failure object carrying the human-readable
message rather than an uncaught exception. -/
theorem C8_failed_turn_behaviour (store : ConvStore) (sessionId : Option String)
    (freshId message : String) (outcome : AgentOutcome)
    (h : isFailureOutcome outcome = true) :
    (ChatController.handleChatMessage store sessionId freshId message outcome).1.success
      = false ∧
    (ChatController.handleChatMessage store sessionId freshId message outcome).1.message
      = failMessage outcome ∧
    (ConversationModel.sessionMessages
        (ChatController.handleChatMessage store sessionId freshId message outcome).2
        (ChatController.handleChatMessage store sessionId freshId
          message outcome).1.sessionId).getLast?
      = some { role := "assistant", content := failMessage outcome, error := true } := by
  cases outcome with
  | ok m e => simp [isFailureOutcome] at h
  | fail e =>
    refine ⟨rfl, rfl, ?_⟩
    simp only [ChatController.handleChatMessage]
    rw [sessionMessages_addMessage_self]
    simp [failMessage]
  | thrown e =>
    refine ⟨rfl, rfl, ?_⟩
    simp only [ChatController.handleChatMessage]
    rw [sessionMessages_addMessage_self]
    simp [failMessage]

/-- C8 witness: on an agent-reported failure with no prior session, the turn
returns a structured failure and the stored session ends with an
error-flagged assistant message. -/
theorem C8_failed_turn_behaviour_witness :
    (ChatController.handleChatMessage [] none "fresh-id" "hello"
        (AgentOutcome.fail "boom")).1.success = false ∧
    (ChatController.handleChatMessage [] none "fresh-id" "hello"
        (AgentOutcome.fail "boom")).1.message = failMessage (AgentOutcome.fail "boom") ∧
    (ConversationModel.sessionMessages
        (ChatController.handleChatMessage [] none "fresh-id" "hello"
          (AgentOutcome.fail "boom")).2
        (ChatController.handleChatMessage [] none "fresh-id" "hello"
          (AgentOutcome.fail "boom")).1.sessionId).getLast?
      = some { role := "assistant", content := failMessage (AgentOutcome.fail "boom"),
               error := true } :=
  C8_failed_turn_behaviour [] none "fresh-id" "hello" (AgentOutcome.fail "boom") rfl

/-- C10 witness: one `searchRentals` call whose argument payload failed to
parse (kept raw) has no query, filters or limit; all three fallbacks fire. -/
theorem C10_metadata_fallbacks_witness :
    (RentalRAGAgent.extractSearchMetadata (some c10Calls) "user text" none).search_query
        = some "user text" ∧
    (RentalRAGAgent.extractSearchMetadata (some c10Calls) "user text" none).search_filters
        = some {} ∧
    (RentalRAGAgent.extractSearchMetadata (some c10Calls) "user text" none).search_limit
        = some 5 := by
  have h := C10_metadata_fallbacks c10Calls "user text" none
    { name := "searchRentals", arguments := some (ToolArgs.raw "not json") } (by decide) rfl
  exact ⟨h.1, h.2.1 rfl, h.2.2 rfl⟩

end RentalApp
